import Mathlib

/-!
Shallow embedding of the sw5-to-shopify migration tool and proofs of the
specification claims about it.

Embedded source parts:
* the per-entity mapping storage module (saveMapping, loadMapping,
  exportAllMappings, importAllMappings, migrateOldMappings);
* the field-mapper addMapping handler;
* the handleSyncAll batch/progress controller of the ProductSync component.
-/

set_option maxHeartbeats 1000000

/-! ## Data model (types.ts) -/

/-- Transformation rule type tag, from the TransformationRule interface. -/
inductive TransType where
  | direct
  | replace
  | regex
  | split_join
  | custom
deriving DecidableEq, Repr

/-- TransformationRule from types.ts: a type tag plus optional parameter
fields; unused fields of a given tag are carried but ignored. -/
structure TransformationRule where
  type : TransType
  find : Option String := none
  replace : Option String := none
  split_delimiter : Option String := none
  join_delimiter : Option String := none
  custom_code : Option String := none
deriving DecidableEq, Repr

/-- FieldMapping from types.ts: a source field path, a target field path and
an optional transformation. -/
structure FieldMapping where
  sw5_field : String
  shopify_field : String
  transformation : Option TransformationRule := none
deriving DecidableEq, Repr

/-- SyncResult from types.ts: one result per attempted source record. -/
structure SyncResult where
  sw5_article_id : Nat
  status : String
  success : Bool
  shopify_product_id : Option Nat := none
  error : Option String := none
deriving DecidableEq, Repr

/-- Entity type: the closed key set used by the per-entity storage module
(articles, orders, customers), as used by exportAllMappings and
importAllMappings. -/
inductive EntityType where
  | articles
  | orders
  | customers
deriving DecidableEq, Repr

/-! ## Storage model

LocalStorage stores strings.  The storage module only ever writes
JSON.stringify of a FieldMapping list, and only ever reads via JSON.parse.
We embed a stored string abstractly as either a string that parses to a
mapping list (the only kind this module writes; JSON round-trips it), or a
non-empty string that fails to parse. -/

/-- A raw value held under one localStorage key. -/
inductive Stored where
  | valid (m : List FieldMapping)
  | corrupt
deriving DecidableEq, Repr

/-- JSON.parse on a stored string: succeeds exactly on strings that encode a
mapping list. -/
def jsonParse : Stored → Except String (List FieldMapping)
  | .valid m => .ok m
  | .corrupt => .error "SyntaxError"

/-- The localStorage keys this module touches: the legacy single key
(sw5_shopify_mapping) and the three per-entity keys
(sw5_shopify_mapping_articles / _orders / _customers). -/
structure Store where
  old : Option Stored
  articles : Option Stored
  orders : Option Stored
  customers : Option Stored
deriving DecidableEq, Repr

/-- localStorage.getItem for the per-entity key of an entity type. -/
def Store.getSlot (s : Store) : EntityType → Option Stored
  | .articles => s.articles
  | .orders => s.orders
  | .customers => s.customers

/-- localStorage.setItem for the per-entity key of an entity type. -/
def Store.setSlot (s : Store) : EntityType → Option Stored → Store
  | .articles, v => { s with articles := v }
  | .orders, v => { s with orders := v }
  | .customers, v => { s with customers := v }

/-- saveMapping from the storage module: writes JSON.stringify of the list
under the per-entity key. -/
def saveMapping (entityType : EntityType) (mapping : List FieldMapping)
    (s : Store) : Store :=
  s.setSlot entityType (some (.valid mapping))

/-- loadMapping from the storage module: getItem, then JSON.parse if a value
was found; a missing value or a parse failure (caught) yields the empty
list. -/
def loadMapping (entityType : EntityType) (s : Store) : List FieldMapping :=
  match s.getSlot entityType with
  | none => []
  | some saved =>
    match jsonParse saved with
    | .ok m => m
    | .error _ => []

/-- The per-entity lists of a mapping export bundle; each may be absent in an
imported bundle. -/
structure BundleMappings where
  articles : Option (List FieldMapping)
  orders : Option (List FieldMapping)
  customers : Option (List FieldMapping)
deriving DecidableEq, Repr

/-- MappingExport: the bundle shape produced by exportAllMappings and
consumed by importAllMappings (version, exportDate, per-entity lists). -/
structure MappingExport where
  version : String
  exportDate : String
  mappings : BundleMappings
deriving DecidableEq, Repr

/-- EXPORT_VERSION constant of the storage module. -/
def EXPORT_VERSION : String := "1.0"

/-- exportAllMappings: snapshot the three per-entity lists via loadMapping;
the export date string is passed in for new Date().toISOString(). -/
def exportAllMappings (now : String) (s : Store) : MappingExport :=
  { version := EXPORT_VERSION
    exportDate := now
    mappings :=
      { articles := some (loadMapping .articles s)
        orders := some (loadMapping .orders s)
        customers := some (loadMapping .customers s) } }

/-- importAllMappings: throw on a version mismatch, otherwise save each
per-entity list (defaulting absent lists to empty).  The first component is
the thrown error message, if any; the second is the resulting store, which a
throw leaves untouched. -/
def importAllMappings (data : MappingExport) (s : Store) :
    Option String × Store :=
  if data.version ≠ EXPORT_VERSION then
    (some ("Incompatible export version: " ++ data.version ++ ". Expected: "
      ++ EXPORT_VERSION), s)
  else
    (none,
      saveMapping .customers (data.mappings.customers.getD [])
        (saveMapping .orders (data.mappings.orders.getD [])
          (saveMapping .articles (data.mappings.articles.getD []) s)))

/-- migrateOldMappings: if the legacy key holds a value and the new articles
key does not, move the raw stored value to the articles key and delete the
legacy key; otherwise do nothing. -/
def migrateOldMappings (s : Store) : Store :=
  match s.old with
  | some oldMappings =>
    if s.articles = none then
      { s with articles := some oldMappings, old := none }
    else s
  | none => s

/-! ## Field mapper (addMapping of the FieldMapper component) -/

/-- JavaScript truthiness of an optional string state variable: null and the
empty string are falsy. -/
def truthyStr : Option String → Bool
  | none => false
  | some s => s ≠ ""

/-- addMapping from the FieldMapper component: reject when either selection
is missing, reject when the (sw5_field, shopify_field) pair already occurs,
otherwise append a new mapping with a direct transformation. -/
def addMapping (mapping : List FieldMapping)
    (selectedSw5Field selectedShopifyField : Option String) :
    List FieldMapping :=
  if ¬ truthyStr selectedSw5Field ∨ ¬ truthyStr selectedShopifyField then
    mapping
  else
    match selectedSw5Field, selectedShopifyField with
    | some a, some b =>
      if mapping.any (fun m => m.sw5_field = a ∧ m.shopify_field = b) then
        mapping
      else
        mapping ++ [{ sw5_field := a, shopify_field := b,
                      transformation := some { type := .direct } }]
    | _, _ => mapping

/-- The uniqueness invariant on a mapping list: no two entries share the
same (sw5_field, shopify_field) pair. -/
def uniquePairs (l : List FieldMapping) : Prop :=
  (l.map (fun m => (m.sw5_field, m.shopify_field))).Nodup

/-! ## Batch/progress controller (handleSyncAll of the ProductSync component)

External calls are oracles: the listing endpoint is a pure function from
(limit, offset) to a page, and the per-batch sync endpoint is a function
from an id batch to either a result list or a thrown error.  The abort
signal is a predicate on observation points: signalAt i is the value of
controller.signal.aborted read at the start of loop iteration i (between
that read and the next await nothing can change it, so the read inside the
catch of iteration i coincides with signalAt (i + 1)). -/

/-- A record returned by the listing endpoint; the controller only reads its
id. -/
structure SrcRecord where
  id : Nat
deriving DecidableEq, Repr

/-- A listing page: the returned records and the server-side total count. -/
structure Page where
  data : List SrcRecord
  total : Nat
deriving DecidableEq, Repr

/-- Controller end states: Idle covers the early-guard returns before any
call is issued. -/
inductive EndState where
  | idle
  | completed
  | abortedSt
  | failed (e : String)
deriving DecidableEq, Repr

/-- Progress events written to the syncProgress state: one before each batch
(current = batch start position) and one after each completed batch
(current = processed count). -/
inductive ProgressEv where
  | pre (current total : Nat)
  | post (current total : Nat)
deriving DecidableEq, Repr

/-- Outcome of the batch loop: aggregated results, dispatched batches in
dispatch order, progress events in emission order, and the end state. -/
structure LoopOut where
  results : List SyncResult
  dispatched : List (List Nat)
  events : List ProgressEv
  state : EndState
deriving DecidableEq, Repr

/-- The for loop over batches in handleSyncAll: at each iteration first
observe the abort signal and break when set; otherwise dispatch the batch.
On a thrown batch error, break when the signal was set during the call,
otherwise rethrow (Failed).  The arguments after the batch list are the
iteration index and the processed-count accumulator. -/
def batchLoop (sync : List Nat → Except String (List SyncResult))
    (signalAt : Nat → Bool) (total : Nat) :
    List (List Nat) → Nat → Nat → LoopOut
  | [], _, _ => ⟨[], [], [], .completed⟩
  | b :: bs, i, done =>
    if signalAt i then ⟨[], [], [], .abortedSt⟩
    else
      match sync b with
      | .ok rs =>
        let rest := batchLoop sync signalAt total bs (i + 1) (done + b.length)
        ⟨rs ++ rest.results, b :: rest.dispatched,
          .pre (done + 1) total :: .post (done + b.length) total :: rest.events,
          rest.state⟩
      | .error e =>
        if signalAt (i + 1) then ⟨[], [b], [.pre (done + 1) total], .abortedSt⟩
        else ⟨[], [b], [.pre (done + 1) total], .failed e⟩

/-- Fuel-indexed worker for chunks; the fuel only bounds the recursion depth
and never influences the value once it is at least the list length. -/
def chunksF (n : Nat) : Nat → List α → List (List α)
  | _, [] => []
  | 0, _ :: _ => []
  | fuel + 1, x :: xs => ((x :: xs).take n) :: chunksF n fuel (xs.drop (n - 1))

/-- Chunking of the id list by the batch slice loop: successive slices of
n elements, the last possibly shorter.  Matches allIds.slice(i, i + n) for
i = 0, n, 2n, ... while i < allIds.length, for n ≥ 1. -/
def chunks (n : Nat) (l : List α) : List (List α) := chunksF n l.length l

theorem chunksF_fuel (n : Nat) :
    ∀ (f1 : Nat) (l : List α) (f2 : Nat), l.length ≤ f1 → l.length ≤ f2 →
      chunksF n f1 l = chunksF n f2 l := by
  intro f1
  induction f1 with
  | zero =>
    intro l f2 h1 _
    have hnil : l = [] := List.eq_nil_of_length_eq_zero (Nat.le_zero.mp h1)
    subst hnil
    cases f2 <;> simp [chunksF]
  | succ f1 ih =>
    intro l f2 h1 h2
    match l with
    | [] => cases f2 <;> simp [chunksF]
    | x :: xs =>
      simp only [List.length_cons] at h1 h2
      match f2 with
      | 0 => omega
      | f2 + 1 =>
        rw [chunksF, chunksF]
        congr 1
        exact ih (xs.drop (n - 1)) f2
          (by simp only [List.length_drop]; omega)
          (by simp only [List.length_drop]; omega)

theorem chunks_cons (n : Nat) (x : α) (xs : List α) :
    chunks n (x :: xs) = ((x :: xs).take n) :: chunks n (xs.drop (n - 1)) := by
  show chunksF n (x :: xs).length (x :: xs) = _
  rw [List.length_cons, chunksF]
  congr 1
  exact chunksF_fuel n xs.length (xs.drop (n - 1)) (xs.drop (n - 1)).length
    (by simp only [List.length_drop]; omega) le_rfl

/-- Outcome of one handleSyncAll run. -/
structure SyncAllOut where
  calls : List (Nat × Nat)
  collectedIds : List Nat
  dispatched : List (List Nat)
  results : List SyncResult
  events : List ProgressEv
  state : EndState
  nothingToSync : Bool
deriving Repr

/-- handleSyncAll from the ProductSync component.  Guards: an empty mapping
or a declined confirm dialog return before any call.  Then: one listing call
with limit 1 and offset 0 whose total is read; a zero total completes
immediately with the nothing-to-sync toast; otherwise ceil(total / 500)
listing pages of size 500 are fetched and their record ids concatenated,
the id list is cut into batches of 50 and driven through the batch loop.
calls records every listing request as (limit, offset) in issue order. -/
def handleSyncAll (mapping : List FieldMapping) (confirmed : Bool)
    (getEntities : Nat → Nat → Page)
    (sync : List Nat → Except String (List SyncResult))
    (signalAt : Nat → Bool) : SyncAllOut :=
  if mapping.length = 0 then ⟨[], [], [], [], [], .idle, false⟩
  else if ¬ confirmed then ⟨[], [], [], [], [], .idle, false⟩
  else
    let totalCount := (getEntities 1 0).total
    if totalCount = 0 then ⟨[(1, 0)], [], [], [], [], .completed, true⟩
    else
      let pageSize := 500
      let totalPages := (totalCount + (pageSize - 1)) / pageSize
      let pageCalls := (List.range totalPages).map (fun page =>
        (pageSize, page * pageSize))
      let allIds := ((List.range totalPages).map (fun page =>
        (getEntities pageSize (page * pageSize)).data.map SrcRecord.id)).flatten
      let batchSize := 50
      let batches := chunks batchSize allIds
      let lo := batchLoop sync signalAt allIds.length batches 0 0
      ⟨(1, 0) :: pageCalls, allIds, lo.dispatched, lo.results, lo.events,
        lo.state, false⟩

/-! ## Helper functions and lemmas -/

/-- Progress events emitted by a run of the batch loop that dispatches every
batch: one pre and one post event per batch, with a running processed
count. -/
def runEvents (total : Nat) : Nat → List (List Nat) → List ProgressEv
  | _, [] => []
  | done, b :: bs =>
    .pre (done + 1) total :: .post (done + b.length) total ::
      runEvents total (done + b.length) bs

/-- The post-batch progress events of an event trace, as
(processed count, total count) pairs. -/
def postEvents : List ProgressEv → List (Nat × Nat)
  | [] => []
  | .pre _ _ :: es => postEvents es
  | .post c t :: es => (c, t) :: postEvents es

/-- The expected post-batch progress pairs for a batch list: cumulative
processed counts against a fixed total. -/
def cumCounts (done total : Nat) : List (List Nat) → List (Nat × Nat)
  | [] => []
  | b :: bs => (done + b.length, total) :: cumCounts (done + b.length) total bs

theorem postEvents_runEvents (total : Nat) :
    ∀ (bs : List (List Nat)) (done : Nat),
      postEvents (runEvents total done bs) = cumCounts done total bs := by
  intro bs
  induction bs with
  | nil => intro done; simp [runEvents, postEvents, cumCounts]
  | cons b bs ih =>
    intro done
    simp [runEvents, postEvents, cumCounts, ih]

theorem chunks_flatten (n : Nat) (hn : 1 ≤ n) :
    ∀ (l : List α), (chunks n l).flatten = l := by
  have H : ∀ (m : Nat) (l : List α), l.length ≤ m →
      (chunks n l).flatten = l := by
    intro m
    induction m with
    | zero =>
      intro l hl
      have hnil : l = [] := List.eq_nil_of_length_eq_zero (Nat.le_zero.mp hl)
      subst hnil
      simp [chunks, chunksF]
    | succ m ih =>
      intro l hl
      match l with
      | [] => simp [chunks, chunksF]
      | x :: xs =>
        simp only [List.length_cons] at hl
        obtain ⟨n', rfl⟩ : ∃ n', n = n' + 1 :=
          ⟨n - 1, (Nat.succ_pred_eq_of_pos hn).symm⟩
        rw [chunks_cons]
        simp only [List.flatten_cons, Nat.add_sub_cancel]
        rw [ih (xs.drop n') (by simp only [List.length_drop]; omega)]
        rw [List.take_cons, List.cons_append]
        simp only [Nat.add_sub_cancel]
        rw [List.take_append_drop n' xs]
        omega
  intro l
  exact H l.length l le_rfl

theorem chunks_mem (n : Nat) (hn : 1 ≤ n) :
    ∀ (l : List α), ∀ b ∈ chunks n l, b ≠ [] ∧ b.length ≤ n := by
  have H : ∀ (m : Nat) (l : List α), l.length ≤ m →
      ∀ b ∈ chunks n l, b ≠ [] ∧ b.length ≤ n := by
    intro m
    induction m with
    | zero =>
      intro l hl
      have hnil : l = [] := List.eq_nil_of_length_eq_zero (Nat.le_zero.mp hl)
      subst hnil
      simp [chunks, chunksF]
    | succ m ih =>
      intro l hl b hb
      match l with
      | [] => simp [chunks, chunksF] at hb
      | x :: xs =>
        simp only [List.length_cons] at hl
        rw [chunks_cons, List.mem_cons] at hb
        rcases hb with hb | hb
        · subst hb
          obtain ⟨n', rfl⟩ : ∃ n', n = n' + 1 :=
            ⟨n - 1, (Nat.succ_pred_eq_of_pos hn).symm⟩
          constructor
          · simp [List.take_cons]
          · simp
        · exact ih (xs.drop (n - 1))
            (by simp only [List.length_drop]; omega) b hb
  intro l
  exact H l.length l le_rfl

theorem chunks_dropLast (n : Nat) (hn : 1 ≤ n) :
    ∀ (l : List α), ∀ b ∈ (chunks n l).dropLast, b.length = n := by
  have H : ∀ (m : Nat) (l : List α), l.length ≤ m →
      ∀ b ∈ (chunks n l).dropLast, b.length = n := by
    intro m
    induction m with
    | zero =>
      intro l hl
      have hnil : l = [] := List.eq_nil_of_length_eq_zero (Nat.le_zero.mp hl)
      subst hnil
      simp [chunks, chunksF]
    | succ m ih =>
      intro l hl b hb
      match l with
      | [] => simp [chunks, chunksF] at hb
      | x :: xs =>
        simp only [List.length_cons] at hl
        rw [chunks_cons] at hb
        rcases hrest : chunks n (xs.drop (n - 1)) with _ | ⟨c, cs⟩
        · rw [hrest] at hb
          simp at hb
        · rw [hrest] at hb
          rw [List.dropLast_cons₂, List.mem_cons] at hb
          have hne : xs.drop (n - 1) ≠ [] := by
            intro hcon
            rw [hcon] at hrest
            simp [chunks, chunksF] at hrest
          have hlen : n - 1 < xs.length := by
            by_contra hcon
            exact hne (List.drop_eq_nil_of_le (Nat.le_of_not_lt hcon))
          rcases hb with hb | hb
          · subst hb
            simp only [List.length_take, List.length_cons]
            omega
          · have := ih (xs.drop (n - 1))
              (by simp only [List.length_drop]; omega) b
            rw [hrest] at this
            exact this hb
  intro l
  exact H l.length l le_rfl

theorem batchLoop_ok (f : List Nat → List SyncResult) (sig : Nat → Bool)
    (total : Nat) (hsig : ∀ j, sig j = false) :
    ∀ (bs : List (List Nat)) (i done : Nat),
      batchLoop (fun b => Except.ok (f b)) sig total bs i done =
        ⟨(bs.map f).flatten, bs, runEvents total done bs, .completed⟩ := by
  intro bs
  induction bs with
  | nil => intro i done; simp [batchLoop, runEvents]
  | cons b bs ih =>
    intro i done
    simp [batchLoop, hsig i, runEvents, ih (i + 1) (done + b.length)]

theorem batchLoop_abort (f : List Nat → List SyncResult) (sig : Nat → Bool)
    (total : Nat) :
    ∀ (bs : List (List Nat)) (i done k : Nat), k < bs.length →
      (∀ j, j < k → sig (i + j) = false) → sig (i + k) = true →
      batchLoop (fun b => Except.ok (f b)) sig total bs i done =
        ⟨((bs.take k).map f).flatten, bs.take k,
          runEvents total done (bs.take k), .abortedSt⟩ := by
  intro bs
  induction bs with
  | nil =>
    intro i done k hk
    simp at hk
  | cons b bs ih =>
    intro i done k hk hbefore hat
    match k with
    | 0 =>
      have : sig i = true := by simpa using hat
      simp [batchLoop, this, runEvents]
    | k' + 1 =>
      have hfalse : sig i = false := by simpa using hbefore 0 (Nat.succ_pos k')
      have hrec := ih (i + 1) (done + b.length) k'
        (by simpa using hk)
        (by
          intro j hj
          have := hbefore (j + 1) (by omega)
          simpa [Nat.add_assoc, Nat.add_comm 1 j] using this)
        (by
          have := hat
          simpa [Nat.add_assoc, Nat.add_comm 1 k'] using this)
      simp [batchLoop, hfalse, hrec, runEvents]

/-! ## Claim theorems: storage module -/

/-- C5: importAllMappings throws exactly when the bundle version differs
from the expected version 1.0, and a throw happens before any per-entity
save, leaving the mapping store unchanged. -/
theorem importAllMappings_version_gate (data : MappingExport) (s : Store) :
    ((importAllMappings data s).fst ≠ none ↔ data.version ≠ "1.0") ∧
    (data.version ≠ "1.0" →
      (importAllMappings data s).fst ≠ none ∧
      (importAllMappings data s).snd = s) := by
  by_cases h : data.version = "1.0" <;>
    simp [importAllMappings, EXPORT_VERSION, h]

/-- C5 witness: a bundle with version 0.9 is rejected and the store is
unchanged. -/
theorem importAllMappings_version_gate_witness :
    (((importAllMappings ⟨"0.9", "d", ⟨none, none, none⟩⟩
        ⟨none, none, none, none⟩).fst ≠ none ↔ ("0.9" : String) ≠ "1.0") ∧
      (("0.9" : String) ≠ "1.0" →
        (importAllMappings ⟨"0.9", "d", ⟨none, none, none⟩⟩
          ⟨none, none, none, none⟩).fst ≠ none ∧
        (importAllMappings ⟨"0.9", "d", ⟨none, none, none⟩⟩
          ⟨none, none, none, none⟩).snd = ⟨none, none, none, none⟩)) :=
  importAllMappings_version_gate ⟨"0.9", "d", ⟨none, none, none⟩⟩
    ⟨none, none, none, none⟩

/-- C8: importing the bundle produced by exportAllMappings never throws and
leaves every entity type loading exactly the list it loaded before. -/
theorem export_import_roundtrip (s : Store) (now : String) :
    (importAllMappings (exportAllMappings now s) s).fst = none ∧
    ∀ e : EntityType,
      loadMapping e (importAllMappings (exportAllMappings now s) s).snd =
        loadMapping e s := by
  constructor
  · simp [importAllMappings, exportAllMappings, EXPORT_VERSION]
  · intro e
    cases e <;>
      simp [importAllMappings, exportAllMappings, loadMapping, saveMapping,
        Store.getSlot, Store.setSlot, jsonParse, EXPORT_VERSION]

/-- C9: migrateOldMappings is idempotent, and an existing value under the
new articles key is never overwritten by the legacy value. -/
theorem migrateOldMappings_idempotent_nondestructive (s : Store) :
    migrateOldMappings (migrateOldMappings s) = migrateOldMappings s ∧
    ∀ v, s.articles = some v → (migrateOldMappings s).articles = some v := by
  constructor
  · rcases h : s.old with _ | ov
    · simp [migrateOldMappings, h]
    · by_cases ha : s.articles = none
      · simp [migrateOldMappings, h, ha]
      · simp [migrateOldMappings, h, ha]
  · intro v hv
    rcases h : s.old with _ | ov
    · simp [migrateOldMappings, h, hv]
    · simp [migrateOldMappings, h, hv]

/-- C9 witness: on a store holding both a legacy value and an articles
value, migration twice equals migration once and the articles value
survives. -/
theorem migrateOldMappings_idempotent_nondestructive_witness :
    (migrateOldMappings (migrateOldMappings
        ⟨some .corrupt, some (.valid []), none, none⟩) =
      migrateOldMappings ⟨some .corrupt, some (.valid []), none, none⟩) ∧
    ((⟨some .corrupt, some (.valid []), none, none⟩ : Store).articles =
        some (.valid []) →
      (migrateOldMappings
        ⟨some .corrupt, some (.valid []), none, none⟩).articles =
        some (.valid [])) :=
  ⟨(migrateOldMappings_idempotent_nondestructive
      ⟨some .corrupt, some (.valid []), none, none⟩).1,
    (migrateOldMappings_idempotent_nondestructive
      ⟨some .corrupt, some (.valid []), none, none⟩).2 (.valid [])⟩

/-- C10: loadMapping is total; it returns the parsed list when the stored
value parses, and the empty list when nothing is stored or parsing fails. -/
theorem loadMapping_total_cases (e : EntityType) (s : Store) :
    (∀ m, s.getSlot e = some (.valid m) → loadMapping e s = m) ∧
    (s.getSlot e = none → loadMapping e s = []) ∧
    (s.getSlot e = some .corrupt → loadMapping e s = []) := by
  refine ⟨?_, ?_, ?_⟩
  · intro m hm
    simp [loadMapping, hm, jsonParse]
  · intro hnone
    simp [loadMapping, hnone]
  · intro hc
    simp [loadMapping, hc, jsonParse]

/-- C10 witness: on a store whose articles slot parses, whose orders slot is
corrupt and whose customers slot is empty, loadMapping returns the parsed
list, the empty list and the empty list. -/
theorem loadMapping_total_cases_witness :
    ((⟨none, some (.valid [⟨"n", "t", none⟩]), some .corrupt,
        none⟩ : Store).getSlot .articles =
          some (.valid [⟨"n", "t", none⟩]) →
      loadMapping .articles
        ⟨none, some (.valid [⟨"n", "t", none⟩]), some .corrupt, none⟩ =
        [⟨"n", "t", none⟩]) ∧
    ((⟨none, some (.valid [⟨"n", "t", none⟩]), some .corrupt,
        none⟩ : Store).getSlot .customers = none →
      loadMapping .customers
        ⟨none, some (.valid [⟨"n", "t", none⟩]), some .corrupt, none⟩ = []) ∧
    ((⟨none, some (.valid [⟨"n", "t", none⟩]), some .corrupt,
        none⟩ : Store).getSlot .orders = some .corrupt →
      loadMapping .orders
        ⟨none, some (.valid [⟨"n", "t", none⟩]), some .corrupt, none⟩ = []) :=
  ⟨(loadMapping_total_cases .articles
      ⟨none, some (.valid [⟨"n", "t", none⟩]), some .corrupt, none⟩).1
      [⟨"n", "t", none⟩],
    (loadMapping_total_cases .customers
      ⟨none, some (.valid [⟨"n", "t", none⟩]), some .corrupt, none⟩).2.1,
    (loadMapping_total_cases .orders
      ⟨none, some (.valid [⟨"n", "t", none⟩]), some .corrupt, none⟩).2.2⟩

/-! ## Claim theorem: field mapper -/

/-- C6: adding a mapping preserves pair uniqueness, and the operation either
rejects (returning the list unchanged) or appends a mapping whose
(sw5_field, shopify_field) pair does not yet occur. -/
theorem addMapping_preserves_uniquePairs (mapping : List FieldMapping)
    (s5 sh : Option String) (h : uniquePairs mapping) :
    uniquePairs (addMapping mapping s5 sh) ∧
    (addMapping mapping s5 sh = mapping ∨
      ∃ a b, s5 = some a ∧ sh = some b ∧
        (¬ ∃ m ∈ mapping, m.sw5_field = a ∧ m.shopify_field = b) ∧
        addMapping mapping s5 sh =
          mapping ++ [{ sw5_field := a, shopify_field := b,
                        transformation := some { type := .direct } }]) := by
  rcases s5 with _ | a
  · have hred : addMapping mapping none sh = mapping := by
      simp [addMapping, truthyStr]
    rw [hred]
    exact ⟨h, Or.inl rfl⟩
  rcases sh with _ | b
  · have hred : addMapping mapping (some a) none = mapping := by
      simp [addMapping, truthyStr]
    rw [hred]
    exact ⟨h, Or.inl rfl⟩
  by_cases ha : a = ""
  · have hred : addMapping mapping (some a) (some b) = mapping := by
      simp [addMapping, truthyStr, ha]
    rw [hred]
    exact ⟨h, Or.inl rfl⟩
  by_cases hb : b = ""
  · have hred : addMapping mapping (some a) (some b) = mapping := by
      simp [addMapping, truthyStr, hb]
    rw [hred]
    exact ⟨h, Or.inl rfl⟩
  have hred : addMapping mapping (some a) (some b) =
      if mapping.any (fun m => m.sw5_field = a ∧ m.shopify_field = b) then
        mapping
      else
        mapping ++ [{ sw5_field := a, shopify_field := b,
                      transformation := some { type := .direct } }] := by
    simp [addMapping, truthyStr, ha, hb]
  by_cases he :
      (mapping.any (fun m => m.sw5_field = a ∧ m.shopify_field = b)) = true
  · rw [hred, if_pos he]
    exact ⟨h, Or.inl rfl⟩
  · rw [hred, if_neg he]
    have hfresh : ∀ m ∈ mapping,
        ¬ (m.sw5_field = a ∧ m.shopify_field = b) := by
      intro m hm hcon
      apply he
      rw [List.any_eq_true]
      exact ⟨m, hm, by simp [hcon.1, hcon.2]⟩
    constructor
    · unfold uniquePairs at h ⊢
      rw [List.map_append, List.nodup_append]
      refine ⟨h, by simp, ?_⟩
      intro p hp hp'
      simp only [List.map_cons, List.map_nil, List.mem_singleton] at hp'
      subst hp'
      rw [List.mem_map] at hp
      rcases hp with ⟨m, hm, hpair⟩
      exact hfresh m hm ⟨congrArg Prod.fst hpair, congrArg Prod.snd hpair⟩
    · refine Or.inr ⟨a, b, rfl, rfl, ?_, rfl⟩
      rintro ⟨m, hm, hma, hmb⟩
      exact hfresh m hm ⟨hma, hmb⟩

/-- C6 witness: adding the fresh pair (x, y) to the unique singleton list
holding (n, t) preserves uniqueness and appends. -/
theorem addMapping_preserves_uniquePairs_witness :
    uniquePairs (addMapping [⟨"n", "t", none⟩] (some "x") (some "y")) ∧
    (addMapping [⟨"n", "t", none⟩] (some "x") (some "y") = [⟨"n", "t", none⟩] ∨
      ∃ a b, (some "x" : Option String) = some a ∧
        (some "y" : Option String) = some b ∧
        (¬ ∃ m ∈ [(⟨"n", "t", none⟩ : FieldMapping)],
          m.sw5_field = a ∧ m.shopify_field = b) ∧
        addMapping [⟨"n", "t", none⟩] (some "x") (some "y") =
          [⟨"n", "t", none⟩] ++ [{ sw5_field := a, shopify_field := b,
                                   transformation := some { type := .direct } }]) :=
  addMapping_preserves_uniquePairs [⟨"n", "t", none⟩] (some "x") (some "y")
    (by simp [uniquePairs])

/-! ## Claim theorems: batch/progress controller -/

/-- Demo mapping list used to drive concrete controller runs. -/
def demoMapping : List FieldMapping := [⟨"name", "title", none⟩]

/-- Demo sync oracle: every id in the batch succeeds. -/
def demoSync (b : List Nat) : List SyncResult :=
  b.map (fun i => ⟨i, "ok", true, none, none⟩)

/-- Demo listing oracle: 101 records, so the run needs one listing page and
three sync batches. -/
def demoG : Nat → Nat → Page := fun limit _ =>
  if limit = 1 then ⟨[], 101⟩ else ⟨(List.range 101).map SrcRecord.mk, 101⟩

/-- Demo abort signal: set from observation point 1 on. -/
def demoSig : Nat → Bool := fun i => decide (1 ≤ i)

/-- C3: a run whose count probe returns total 0 terminates at once as
Completed with the nothing-to-sync signal, no listing page call beyond the
probe, no dispatched batch, no result and no progress event. -/
theorem syncAll_zero_total_completes_empty (mapping : List FieldMapping)
    (confirmed : Bool) (g : Nat → Nat → Page)
    (sync : List Nat → Except String (List SyncResult)) (sig : Nat → Bool)
    (hm : mapping ≠ []) (hc : confirmed = true) (h0 : (g 1 0).total = 0) :
    handleSyncAll mapping confirmed g sync sig =
      ⟨[(1, 0)], [], [], [], [], .completed, true⟩ := by
  subst hc
  simp [handleSyncAll, List.length_eq_zero, hm, h0]

/-- C3 witness: a concrete empty source yields the immediate Completed
outcome. -/
theorem syncAll_zero_total_completes_empty_witness :
    demoMapping ≠ [] ∧
    ((fun _ _ => Page.mk [] 0) 1 0).total = 0 ∧
    handleSyncAll demoMapping true (fun _ _ => Page.mk [] 0)
      (fun b => Except.ok (demoSync b)) (fun _ => false) =
      ⟨[(1, 0)], [], [], [], [], .completed, true⟩ :=
  ⟨by decide, rfl,
    syncAll_zero_total_completes_empty demoMapping true
      (fun _ _ => Page.mk [] 0) (fun b => Except.ok (demoSync b))
      (fun _ => false) (by decide) rfl rfl⟩

/-- C7: with a positive total n, the listing phase issues, after the count
probe, exactly ceil(n / 500) page calls with limit 500 and offsets
0, 500, 1000, ..., and the collected id list is the page-order concatenation
of the returned record ids. -/
theorem syncAll_listing_pagination (mapping : List FieldMapping)
    (confirmed : Bool) (g : Nat → Nat → Page)
    (sync : List Nat → Except String (List SyncResult)) (sig : Nat → Bool)
    (hm : mapping ≠ []) (hc : confirmed = true) (h0 : 0 < (g 1 0).total) :
    (handleSyncAll mapping confirmed g sync sig).calls =
      (1, 0) :: (List.range (((g 1 0).total + 499) / 500)).map
        (fun page => (500, page * 500)) ∧
    (handleSyncAll mapping confirmed g sync sig).collectedIds =
      ((List.range (((g 1 0).total + 499) / 500)).map
        (fun page => (g 500 (page * 500)).data.map SrcRecord.id)).flatten := by
  subst hc
  have h0' : (g 1 0).total ≠ 0 := Nat.pos_iff_ne_zero.mp h0
  constructor <;>
    simp [handleSyncAll, List.length_eq_zero, hm, h0']

/-- C7 witness: a source with total 3 is listed with a single page call of
limit 500 at offset 0 and the three returned ids are collected in order. -/
theorem syncAll_listing_pagination_witness :
    demoMapping ≠ [] ∧ 0 < (demoG 1 0).total ∧
    ((handleSyncAll demoMapping true demoG
        (fun b => Except.ok (demoSync b)) (fun _ => false)).calls =
      (1, 0) :: (List.range (((demoG 1 0).total + 499) / 500)).map
        (fun page => (500, page * 500)) ∧
    (handleSyncAll demoMapping true demoG
        (fun b => Except.ok (demoSync b)) (fun _ => false)).collectedIds =
      ((List.range (((demoG 1 0).total + 499) / 500)).map
        (fun page => (demoG 500 (page * 500)).data.map SrcRecord.id)).flatten) :=
  ⟨by decide, by decide,
    syncAll_listing_pagination demoMapping true demoG
      (fun b => Except.ok (demoSync b)) (fun _ => false)
      (by decide) rfl (by decide)⟩

/-- C4: for every collected id list, the batch phase cuts it into
consecutive batches of 50 (the last possibly shorter) whose concatenation is
the original list, dispatches them strictly in order, emits after each batch
a post progress event carrying the cumulative processed count against the
total, appends the results of each batch to the aggregate in order, and ends
Completed, provided the abort signal never gets set. -/
theorem sync_batches_in_order_with_progress (ids : List Nat)
    (syncF : List Nat → List SyncResult) (sig : Nat → Bool)
    (hsig : ∀ i, sig i = false) :
    (chunks 50 ids).flatten = ids ∧
    (∀ b ∈ chunks 50 ids, b ≠ [] ∧ b.length ≤ 50) ∧
    (∀ b ∈ (chunks 50 ids).dropLast, b.length = 50) ∧
    batchLoop (fun b => Except.ok (syncF b)) sig ids.length
        (chunks 50 ids) 0 0 =
      ⟨((chunks 50 ids).map syncF).flatten, chunks 50 ids,
        runEvents ids.length 0 (chunks 50 ids), .completed⟩ ∧
    postEvents (runEvents ids.length 0 (chunks 50 ids)) =
      cumCounts 0 ids.length (chunks 50 ids) :=
  ⟨chunks_flatten 50 (by omega) ids,
    chunks_mem 50 (by omega) ids,
    chunks_dropLast 50 (by omega) ids,
    batchLoop_ok syncF sig ids.length hsig (chunks 50 ids) 0 0,
    postEvents_runEvents ids.length (chunks 50 ids) 0⟩

/-- C4 witness: the batch phase over the ids 0..119 with a never-set signal
partitions into batches of 50, 50, 20 and satisfies the progress and
aggregate properties. -/
theorem sync_batches_in_order_with_progress_witness :
    (∀ i : Nat, (fun _ : Nat => false) i = false) ∧
    ((chunks 50 (List.range 120)).flatten = List.range 120 ∧
    (∀ b ∈ chunks 50 (List.range 120), b ≠ [] ∧ b.length ≤ 50) ∧
    (∀ b ∈ (chunks 50 (List.range 120)).dropLast, b.length = 50) ∧
    batchLoop (fun b => Except.ok (demoSync b)) (fun _ => false)
        (List.range 120).length (chunks 50 (List.range 120)) 0 0 =
      ⟨((chunks 50 (List.range 120)).map demoSync).flatten,
        chunks 50 (List.range 120),
        runEvents (List.range 120).length 0 (chunks 50 (List.range 120)),
        .completed⟩ ∧
    postEvents (runEvents (List.range 120).length 0
        (chunks 50 (List.range 120))) =
      cumCounts 0 (List.range 120).length (chunks 50 (List.range 120))) :=
  ⟨fun _ => rfl,
    sync_batches_in_order_with_progress (List.range 120) demoSync
      (fun _ => false) (fun _ => rfl)⟩

/-- C1: in a run where the abort signal is first observed set at the check
preceding batch k (0-indexed: batches 0..k-1 completed, the signal became
set before the check for batch k), the controller dispatches exactly the
first k batches, ends Aborted, and the aggregate holds exactly the results
of those k batches in order. -/
theorem syncAll_cancel_between_batches (mapping : List FieldMapping)
    (confirmed : Bool) (g : Nat → Nat → Page)
    (syncF : List Nat → List SyncResult) (sig : Nat → Bool)
    (ids : List Nat) (k : Nat)
    (hm : mapping ≠ []) (hc : confirmed = true) (h0 : (g 1 0).total ≠ 0)
    (hids : (handleSyncAll mapping confirmed g
      (fun b => Except.ok (syncF b)) sig).collectedIds = ids)
    (hk : k < (chunks 50 ids).length)
    (hbefore : ∀ i, i < k → sig i = false)
    (hat : sig k = true) :
    (handleSyncAll mapping confirmed g
      (fun b => Except.ok (syncF b)) sig).state = .abortedSt ∧
    (handleSyncAll mapping confirmed g
      (fun b => Except.ok (syncF b)) sig).dispatched =
        (chunks 50 ids).take k ∧
    (handleSyncAll mapping confirmed g
      (fun b => Except.ok (syncF b)) sig).results =
        (((chunks 50 ids).take k).map syncF).flatten := by
  subst hc
  simp [handleSyncAll, List.length_eq_zero, hm, h0] at hids ⊢
  have hlen := congrArg List.length hids
  simp only [List.length_flatten, List.map_map] at hlen
  rw [hids, hlen]
  have habort := batchLoop_abort syncF sig ids.length (chunks 50 ids) 0 0 k
    hk (by intro j hj; simpa using hbefore j hj) (by simpa using hat)
  rw [habort]
  simp [List.map_take]

/-- C1 witness: with 101 ids (three batches) and the signal set from
observation point 1 on, only the first batch is dispatched, the run aborts,
and the aggregate is exactly the result list of batch 1. -/
theorem syncAll_cancel_between_batches_witness :
    (∀ i, i < 1 → demoSig i = false) ∧ demoSig 1 = true ∧
    1 < (chunks 50 (List.range 101)).length ∧
    ((handleSyncAll demoMapping true demoG
        (fun b => Except.ok (demoSync b)) demoSig).state = .abortedSt ∧
      (handleSyncAll demoMapping true demoG
        (fun b => Except.ok (demoSync b)) demoSig).dispatched =
          (chunks 50 (List.range 101)).take 1 ∧
      (handleSyncAll demoMapping true demoG
        (fun b => Except.ok (demoSync b)) demoSig).results =
          (((chunks 50 (List.range 101)).take 1).map demoSync).flatten) :=
  ⟨by decide, by decide, by decide,
    syncAll_cancel_between_batches demoMapping true demoG demoSync demoSig
      (List.range 101) 1 (by decide) rfl (by decide) (by decide) (by decide)
      (by decide) (by decide)⟩

/-- C2 counterexample: the first call of a sync-all run requests one record
(limit 1), not zero records, so the claimed zero-row listing call is not
what the code issues. -/
theorem syncAll_first_call_requests_one_row :
    ((handleSyncAll demoMapping true demoG
        (fun b => Except.ok (demoSync b)) (fun _ => false)).calls.head?).map
      Prod.fst = some 1 ∧ (1 : Nat) ≠ 0 := by
  constructor
  · decide
  · decide

/-- C2 amended: the first listing call of a sync-all run is a one-record
call with limit 1 and offset 0, and it is used only to obtain the total
count: two listing oracles that agree on that total and on every other
request produce identical runs. -/
theorem syncAll_first_call_one_row_count_only (mapping : List FieldMapping)
    (confirmed : Bool) (g g2 : Nat → Nat → Page)
    (sync : List Nat → Except String (List SyncResult)) (sig : Nat → Bool)
    (hm : mapping ≠ []) (hc : confirmed = true)
    (htot : (g 1 0).total = (g2 1 0).total)
    (hrest : ∀ l o, ¬ (l = 1 ∧ o = 0) → g l o = g2 l o) :
    (handleSyncAll mapping confirmed g sync sig).calls.head? = some (1, 0) ∧
    handleSyncAll mapping confirmed g sync sig =
      handleSyncAll mapping confirmed g2 sync sig := by
  subst hc
  have hpage : ∀ p : Nat, g 500 (p * 500) = g2 500 (p * 500) := fun p =>
    hrest 500 (p * 500) (fun hcon => absurd hcon.1 (by decide))
  have hmap : (fun page => (g 500 (page * 500)).data.map SrcRecord.id) =
      (fun page => (g2 500 (page * 500)).data.map SrcRecord.id) := by
    funext p
    rw [hpage p]
  constructor
  · by_cases h0 : (g 1 0).total = 0
    · simp [handleSyncAll, List.length_eq_zero, hm, h0]
    · simp [handleSyncAll, List.length_eq_zero, hm, h0]
  · by_cases h0 : (g 1 0).total = 0
    · have h0' : (g2 1 0).total = 0 := htot ▸ h0
      simp [handleSyncAll, List.length_eq_zero, hm, h0, h0']
    · have h0' : (g2 1 0).total ≠ 0 := fun hcon => h0 (htot.trans hcon)
      simp [handleSyncAll, List.length_eq_zero, hm, h0, h0', htot, hmap]

/-- C2 amended witness: a concrete run has first call (1, 0), and the run
against a second copy of the oracle is identical. -/
theorem syncAll_first_call_one_row_count_only_witness :
    demoMapping ≠ [] ∧
    ((handleSyncAll demoMapping true demoG
        (fun b => Except.ok (demoSync b)) (fun _ => false)).calls.head? =
      some (1, 0) ∧
    handleSyncAll demoMapping true demoG
        (fun b => Except.ok (demoSync b)) (fun _ => false) =
      handleSyncAll demoMapping true demoG
        (fun b => Except.ok (demoSync b)) (fun _ => false)) :=
  ⟨by decide,
    syncAll_first_call_one_row_count_only demoMapping true demoG demoG
      (fun b => Except.ok (demoSync b)) (fun _ => false) (by decide) rfl rfl
      (fun _ _ _ => rfl)⟩

/-- C8 witness: the export/import round trip on a concrete store with one
valid slot, one corrupt slot and one empty slot never throws and preserves
what loadMapping returns for every entity type. -/
theorem export_import_roundtrip_witness :
    (importAllMappings (exportAllMappings "2024-01-01"
        ⟨none, some (.valid demoMapping), some .corrupt, none⟩)
      ⟨none, some (.valid demoMapping), some .corrupt, none⟩).fst = none ∧
    ∀ e : EntityType,
      loadMapping e (importAllMappings (exportAllMappings "2024-01-01"
          ⟨none, some (.valid demoMapping), some .corrupt, none⟩)
        ⟨none, some (.valid demoMapping), some .corrupt, none⟩).snd =
      loadMapping e ⟨none, some (.valid demoMapping), some .corrupt, none⟩ :=
  export_import_roundtrip ⟨none, some (.valid demoMapping), some .corrupt,
    none⟩ "2024-01-01"
